import Mathlib

/-!
# PoseBridge inference engine: a shallow embedding of `scripts/engine.py`

The program is a single relay loop (`main` in `scripts/engine.py`): it polls a
ZMQ SUB socket for camera frames, decodes the JPEG payload, runs mediapipe pose
estimation on a BGR-to-RGB converted copy, draws the skeleton onto the original
buffer when a pose was found, JPEG-encodes the (possibly annotated) buffer,
publishes a preview message, and, when keypoints exist, publishes a pose
message.  The loop breaks on `KeyboardInterrupt` or any other exception and
then closes the three sockets and terminates the context.

The embedding below models the external collaborators (OpenCV, mediapipe, ZMQ,
`time.time`) as an environment of functions; fallible calls return
`Except Unit`.  Bytes are modelled as `List Nat`; a multipart ZMQ message is a
`List (List Nat)`.  A 32-bit float is represented by its bit pattern (a `Nat`),
and `numpy.float32.tobytes` by little-endian 4-byte serialization of that
pattern.  JSON serialization of the two fixed metadata dictionaries is
abstracted: the published metadata is kept as a structured record of exactly
the fields the code puts into the dictionary.  Mediapipe sets `pose_landmarks`
and `pose_world_landmarks` together (both are `None`, or both hold the same
number of landmarks); the model therefore carries a single optional landmark
list that serves the truthiness guard, the drawing call and the keypoint
extraction.
-/

namespace PoseBridge

/-- A decoded pixel buffer: `frame.shape = (height, width, 3)`, BGR samples
flattened row-major into `data`.  `cv2.imdecode ... IMREAD_COLOR` produces such
a buffer. -/
structure Frame where
  height : Nat
  width : Nat
  data : List Nat
deriving DecidableEq, Repr

/-- One mediapipe landmark: the four float32 fields read by the loop, each
represented by its 32-bit pattern. -/
structure Landmark where
  x : Nat
  y : Nat
  z : Nat
  visibility : Nat
deriving DecidableEq, Repr

/-- Little-endian 4-byte serialization of a 32-bit word, as
`numpy.float32.tobytes` lays one element out on a little-endian host. -/
def le4 (v : Nat) : List Nat :=
  [v % 256, v / 256 % 256, v / 65536 % 256, v / 16777216 % 256]

/-- The four words one landmark contributes, in the order the loop extends
`kp_list`: `[lm.x, lm.y, lm.z, lm.visibility]`. -/
def lmWords (l : Landmark) : List Nat :=
  [l.x, l.y, l.z, l.visibility]

/-- `kp_list`: the flattened float words of all landmarks, landmark-major. -/
def kpList (lms : List Landmark) : List Nat :=
  lms.flatMap lmWords

/-- `np.array(kp_list, dtype=np.float32).tobytes()`: each word serialized
little-endian, concatenated in list order. -/
def kpBytes (kp : List Nat) : List Nat :=
  kp.flatMap le4

/-- The preview metadata dictionary
`{"w": frame.shape[1], "h": frame.shape[0], "ts": time.time()}` (its JSON
encoding abstracted).  The timestamp is an opaque value. -/
structure PreviewMeta where
  w : Nat
  h : Nat
  ts : Nat
deriving DecidableEq, Repr

/-- A two-part message on the preview PUB socket: metadata plus JPEG bytes. -/
structure PreviewMsg where
  meta : PreviewMeta
  payload : List Nat
deriving DecidableEq, Repr

/-- The pose metadata dictionary `{"count": len(...)}` (JSON abstracted). -/
structure PoseMeta where
  count : Nat
deriving DecidableEq, Repr

/-- A two-part message on the keypoint PUB socket: metadata plus the float32
byte buffer. -/
structure PoseMsg where
  meta : PoseMeta
  payload : List Nat
deriving DecidableEq, Repr

/-- The external collaborators of the loop.  A `.error` result models the call
raising a Python exception (caught by the blanket `except Exception`);
`imdecode` can also return `none`, modelling `cv2.imdecode` returning `None`
on a malformed payload.  `process` and `time` are indexed by the iteration
number so that estimator state and the clock may vary between frames. -/
structure Env where
  imdecode : List Nat → Except Unit (Option Frame)
  cvtColorBGR2RGB : Frame → Frame
  process : Nat → Frame → Except Unit (Option (List Landmark))
  draw_landmarks : Frame → List Landmark → Except Unit (List Nat)
  imencode : Frame → Nat → Except Unit (List Nat)
  send_img : PreviewMsg → Except Unit Unit
  send_pose : PoseMsg → Except Unit Unit
  time : Nat → Nat

/-- How one pass through the loop body ended: `ok` reaches the end of the
`try` block, `skip` is the `frame is None: continue` path, `exn` is an
exception caught by `except Exception` (which breaks the loop). -/
inductive BodyRes where
  | ok
  | skip
  | exn
deriving DecidableEq, Repr

/-- What one pass through the loop body published on each socket (in send
order), and how it ended.  A send that raises does not publish its message. -/
structure BodyOut where
  prevOut : List PreviewMsg
  poseOut : List PoseMsg
  res : BodyRes
deriving DecidableEq, Repr

/-- Steps 6-7 of the loop body: encode the (possibly annotated) `frame` at
JPEG quality 70, publish the preview message, then publish the keypoint
message only if `kp_list` is non-empty (`if kp_list:`).  `count` is
`len(results.pose_world_landmarks.landmark)`. -/
def publishStage (env : Env) (i : Nat) (frame : Frame) (kp : List Nat)
    (count : Nat) : BodyOut :=
  match env.imencode frame 70 with
  | .error _ => ⟨[], [], .exn⟩
  | .ok buffer =>
    let pm : PreviewMsg := ⟨⟨frame.width, frame.height, env.time i⟩, buffer⟩
    match env.send_img pm with
    | .error _ => ⟨[], [], .exn⟩
    | .ok _ =>
      if kp.isEmpty then ⟨[pm], [], .ok⟩
      else
        let qm : PoseMsg := ⟨⟨count⟩, kpBytes kp⟩
        match env.send_pose qm with
        | .error _ => ⟨[pm], [], .exn⟩
        | .ok _ => ⟨[pm], [qm], .ok⟩

/-- Steps 3-7 of the loop body, for one received multipart message `m`:
`msg[1]` (an `IndexError` when there is no part 1), `cv2.imdecode` (skip on
`None`), `pose.process` on the BGR-to-RGB converted frame, then, when
`results.pose_landmarks` is truthy, `draw_landmarks` onto the original frame
in place (same shape, new samples) and extraction of `kp_list`; finally the
publish stage.  The inbound metadata part `m[0]` is never read. -/
def body (env : Env) (i : Nat) (m : List (List Nat)) : BodyOut :=
  match m[1]? with
  | none => ⟨[], [], .exn⟩
  | some payload =>
    match env.imdecode payload with
    | .error _ => ⟨[], [], .exn⟩
    | .ok none => ⟨[], [], .skip⟩
    | .ok (some frame) =>
      match env.process i (env.cvtColorBGR2RGB frame) with
      | .error _ => ⟨[], [], .exn⟩
      | .ok none => publishStage env i frame [] 0
      | .ok (some lms) =>
        match env.draw_landmarks frame lms with
        | .error _ => ⟨[], [], .exn⟩
        | .ok d =>
          publishStage env i { frame with data := d } (kpList lms) lms.length

/-- What one poll iteration observes: no message within the 10 ms timeout, a
received multipart message, an exception raised by `recv_multipart`, or a
`KeyboardInterrupt` delivered at the poll/receive boundary. -/
inductive Event where
  | timeout
  | recv (m : List (List Nat))
  | recvErr
  | interrupt
deriving DecidableEq, Repr

/-- How the `while True` loop exited: via `except KeyboardInterrupt: break`
or via `except Exception: break`. -/
inductive ExitKind where
  | interrupted
  | errored
deriving DecidableEq, Repr

/-- The externally visible actions of a run: publications on the two PUB
sockets, the three `close` calls and `context.term()`. -/
inductive Action where
  | pubPreview (m : PreviewMsg)
  | pubPose (m : PoseMsg)
  | closeSub
  | closePubImg
  | closePubPose
  | termCtx
deriving DecidableEq, Repr

/-- The publish actions of one body pass, in send order (preview first). -/
def bodyActs (b : BodyOut) : List Action :=
  b.prevOut.map Action.pubPreview ++ b.poseOut.map Action.pubPose

/-- The `while True` loop, driven by a finite script of poll observations.
Returns the action trace and `some exit` when the loop broke within the
script, `none` when the script ran out with the loop still polling. -/
def loopRun (env : Env) : Nat → List Event → List Action × Option ExitKind
  | _, [] => ([], none)
  | i, Event.timeout :: es => loopRun env (i + 1) es
  | _, Event.interrupt :: _ => ([], some ExitKind.interrupted)
  | _, Event.recvErr :: _ => ([], some ExitKind.errored)
  | i, Event.recv m :: es =>
    let b := body env i m
    match b.res with
    | .exn => (bodyActs b, some ExitKind.errored)
    | _ =>
      let r := loopRun env (i + 1) es
      (bodyActs b ++ r.1, r.2)

/-- The shutdown sequence after the loop: `socket_sub.close()`,
`socket_pub_img.close()`, `socket_pub_pose.close()`, `context.term()`. -/
def shutdownActs : List Action :=
  [Action.closeSub, Action.closePubImg, Action.closePubPose, Action.termCtx]

/-- The whole of `main` after socket setup: run the loop; if it broke (either
way), perform the shutdown sequence and return. -/
def mainRun (env : Env) (es : List Event) : List Action × Option ExitKind :=
  let r := loopRun env 0 es
  match r.2 with
  | none => r
  | some k => (r.1 ++ shutdownActs, some k)

/-- The publish actions contributed by one scripted event. -/
def eventActs (env : Env) (i : Nat) : Event → List Action
  | Event.recv m => bodyActs (body env i m)
  | _ => []

/-- In-order concatenation of the per-event publish actions of a script. -/
def actsOf (env : Env) : Nat → List Event → List Action
  | _, [] => []
  | i, e :: es => eventActs env i e ++ actsOf env (i + 1) es

/-- Whether an action is a publication (as opposed to a close/term). -/
def isPub : Action → Bool
  | .pubPreview _ => true
  | .pubPose _ => true
  | _ => false

/-- Two poll observations that differ at most in the metadata part (part 0)
of a received message: the payload parts `m[1]` agree, and non-receive events
are identical. -/
def eventSamePayload : Event → Event → Prop
  | Event.recv m, Event.recv m2 => m[1]? = m2[1]?
  | e, e2 => e = e2

/-! ## Concrete test fixtures (used by the witness theorems) -/

/-- A small concrete frame (height 2, width 3). -/
def testFrame : Frame := ⟨2, 3, [1, 2, 3]⟩

/-- A second concrete frame on which the test estimator finds no pose. -/
def testFrame2 : Frame := ⟨4, 5, [6]⟩

/-- A concrete landmark. -/
def testLm : Landmark := ⟨1, 2, 3, 4⟩

/-- A concrete deterministic environment: payload `[7]` decodes to `testFrame`
(on whose RGB conversion the estimator finds one landmark), payload `[8]`
decodes to `testFrame2` (no pose), anything else fails to decode.  The
estimator only fires on the colour-converted data, the annotator prepends a
sample, the encoder prepends the quality. -/
def testEnv : Env where
  imdecode := fun p =>
    if p = [7] then Except.ok (some testFrame)
    else if p = [8] then Except.ok (some testFrame2)
    else Except.ok none
  cvtColorBGR2RGB := fun f => { f with data := f.data.reverse }
  process := fun _ f =>
    if f.data = [3, 2, 1] then Except.ok (some [testLm]) else Except.ok none
  draw_landmarks := fun f lms =>
    Except.ok (if lms.isEmpty then f.data else 5 :: f.data)
  imencode := fun f q => Except.ok (q :: f.data)
  send_img := fun _ => Except.ok ()
  send_pose := fun _ => Except.ok ()
  time := fun i => 100 + i

/-! ## Helper lemmas -/

/-- Flattened keypoint words are empty exactly when the landmark list is. -/
theorem kpList_eq_nil_iff (lms : List Landmark) : kpList lms = [] ↔ lms = [] := by
  cases lms with
  | nil => simp [kpList]
  | cons l ls => simp [kpList, lmWords]

/-- The serialized keypoint buffer of `N` landmarks is `4*N*4` bytes long. -/
theorem kpBytes_kpList_length (lms : List Landmark) :
    (kpBytes (kpList lms)).length = 4 * lms.length * 4 := by
  induction lms with
  | nil => simp [kpList, kpBytes]
  | cons l ls ih =>
    simp only [kpList, kpBytes, List.flatMap_cons, List.flatMap_append,
      List.length_append] at *
    simp [lmWords, le4, ih]
    ring

/-- Every action the loop itself emits is a publication. -/
theorem loopRun_all_pub (env : Env) :
    ∀ (es : List Event) (i : Nat) (a : Action),
      a ∈ (loopRun env i es).1 → isPub a = true := by
  intro es
  induction es with
  | nil => intro i a h; simp [loopRun] at h
  | cons e es ih =>
    intro i a h
    cases e with
    | timeout => exact ih _ a h
    | interrupt => simp [loopRun] at h
    | recvErr => simp [loopRun] at h
    | recv m =>
      simp only [loopRun] at h
      have hb : ∀ b : BodyOut, a ∈ bodyActs b → isPub a = true := by
        intro b hab
        rcases List.mem_append.mp hab with hp | hq
        · rcases List.mem_map.mp hp with ⟨pm, _, rfl⟩; rfl
        · rcases List.mem_map.mp hq with ⟨qm, _, rfl⟩; rfl
      rcases hres : (body env i m).res with _ | _ | _ <;> rw [hres] at h
      · rcases List.mem_append.mp h with h1 | h2
        · exact hb _ h1
        · exact ih _ a h2
      · rcases List.mem_append.mp h with h1 | h2
        · exact hb _ h1
        · exact ih _ a h2
      · exact hb _ h

/-- The loop trace is the in-order concatenation of per-event publish actions
for a prefix of the script. -/
theorem loopRun_trace_take (env : Env) :
    ∀ (es : List Event) (i : Nat),
      ∃ n, n ≤ es.length ∧ (loopRun env i es).1 = actsOf env i (es.take n) := by
  intro es
  induction es with
  | nil => intro i; exact ⟨0, Nat.le_refl _, rfl⟩
  | cons e es ih =>
    intro i
    cases e with
    | timeout =>
      rcases ih (i + 1) with ⟨n, hn, heq⟩
      exact ⟨n + 1, by simpa using hn, by
        simpa [loopRun, actsOf, eventActs] using heq⟩
    | interrupt =>
      exact ⟨0, Nat.zero_le _, by simp [loopRun, actsOf]⟩
    | recvErr =>
      exact ⟨0, Nat.zero_le _, by simp [loopRun, actsOf]⟩
    | recv m =>
      rcases hres : (body env i m).res with _ | _ | _
      · rcases ih (i + 1) with ⟨n, hn, heq⟩
        refine ⟨n + 1, by simpa using hn, ?_⟩
        simp [loopRun, actsOf, eventActs, hres, heq]
      · rcases ih (i + 1) with ⟨n, hn, heq⟩
        refine ⟨n + 1, by simpa using hn, ?_⟩
        simp [loopRun, actsOf, eventActs, hres, heq]
      · refine ⟨1, by simp, ?_⟩
        simp [loopRun, actsOf, eventActs, hres]

/-! ## Claim theorems -/

/-- C3: a payload that fails to decode (`cv2.imdecode` returns `None`) makes
the loop abandon the message: nothing is published on either channel, the body
ends in the recoverable `skip` outcome (`continue`), and the rest of the run
is exactly what it would have been had the message never arrived, so a
subsequent valid frame is processed normally. -/
theorem decode_failure_skips (env : Env) (i : Nat) (m : List (List Nat))
    (p : List Nat) (es : List Event)
    (hp : m[1]? = some p)
    (hdec : env.imdecode p = Except.ok none) :
    body env i m = ⟨[], [], BodyRes.skip⟩ ∧
    loopRun env i (Event.recv m :: es) = loopRun env (i + 1) es := by
  have hbody : body env i m = ⟨[], [], BodyRes.skip⟩ := by
    simp [body, hp, hdec]
  refine ⟨hbody, ?_⟩
  simp [loopRun, hbody, bodyActs]

/-- C3 witness: payload `[9]` fails to decode in `testEnv`; the message is
skipped and a following valid frame still yields its publications. -/
theorem decode_failure_skips_witness :
    body testEnv 0 [[0], [9]] = ⟨[], [], BodyRes.skip⟩ ∧
    loopRun testEnv 0 [Event.recv [[0], [9]], Event.recv [[0], [8]]] =
      loopRun testEnv 1 [Event.recv [[0], [8]]] :=
  decode_failure_skips testEnv 0 [[0], [9]] [9]
    [Event.recv [[0], [8]]] rfl rfl

/-- The publish stage never produces the recoverable `skip` outcome: only the
`frame is None` branch of the decode step does. -/
theorem publishStage_res_ne_skip (env : Env) (i : Nat) (f : Frame)
    (kp : List Nat) (c : Nat) :
    (publishStage env i f kp c).res ≠ BodyRes.skip := by
  unfold publishStage
  rcases env.imencode f 70 with e | buffer
  · simp
  · simp only
    rcases env.send_img ⟨⟨f.width, f.height, env.time i⟩, buffer⟩ with e | u
    · simp
    · by_cases hkp : kp.isEmpty
      · simp [hkp]
      · simp only [hkp]
        rcases env.send_pose ⟨⟨c⟩, kpBytes kp⟩ with e | u <;> simp

/-- The serialized keypoint buffer, written landmark-major: each landmark
contributes its `x`, `y`, `z`, `visibility` words in order, each as four
little-endian bytes. -/
theorem kpBytes_kpList (lms : List Landmark) :
    kpBytes (kpList lms) =
      lms.flatMap fun l =>
        le4 l.x ++ le4 l.y ++ le4 l.z ++ le4 l.visibility := by
  induction lms with
  | nil => rfl
  | cons l ls ih =>
    have h1 : kpList (l :: ls) = lmWords l ++ kpList ls := by
      simp [kpList]
    have h2 : kpBytes (lmWords l ++ kpList ls) =
        kpBytes (lmWords l) ++ kpBytes (kpList ls) := by
      simp [kpBytes]
    rw [h1, h2, ih, List.flatMap_cons]
    simp [lmWords, kpBytes]

/-- When the publish stage does not raise, it publishes exactly one preview
message, carrying the encoded frame at quality 70 plus the frame's width,
height and the current timestamp. -/
theorem publishStage_prevOut (env : Env) (i : Nat) (f : Frame)
    (kp : List Nat) (c : Nat)
    (hne : (publishStage env i f kp c).res ≠ BodyRes.exn) :
    ∃ buffer, env.imencode f 70 = Except.ok buffer ∧
      (publishStage env i f kp c).prevOut =
        [⟨⟨f.width, f.height, env.time i⟩, buffer⟩] := by
  unfold publishStage at hne ⊢
  rcases henc : env.imencode f 70 with e | buffer
  · rw [henc] at hne; simp at hne
  · simp only [henc] at hne ⊢
    rcases hsend : env.send_img ⟨⟨f.width, f.height, env.time i⟩, buffer⟩
      with e | u
    · simp only [hsend] at hne; simp at hne
    · simp only [hsend] at hne ⊢
      by_cases hkp : kp.isEmpty
      · simp [hkp]
      · simp only [hkp] at hne ⊢
        rcases hqs : env.send_pose ⟨⟨c⟩, kpBytes kp⟩ with e | u
        · simp only [hqs] at hne; simp at hne
        · simp [hqs]

/-- When the publish stage does not raise, a pose message goes out exactly
when `kp_list` is non-empty, and any published pose message carries `count`
`c` and the serialized keypoint buffer. -/
theorem publishStage_poseOut (env : Env) (i : Nat) (f : Frame)
    (kp : List Nat) (c : Nat)
    (hne : (publishStage env i f kp c).res ≠ BodyRes.exn) :
    ((publishStage env i f kp c).poseOut ≠ [] ↔ kp ≠ []) ∧
    ∀ qm ∈ (publishStage env i f kp c).poseOut,
      qm.meta.count = c ∧ qm.payload = kpBytes kp := by
  unfold publishStage at hne ⊢
  rcases henc : env.imencode f 70 with e | buffer
  · rw [henc] at hne; simp at hne
  · simp only [henc] at hne ⊢
    rcases hsend : env.send_img ⟨⟨f.width, f.height, env.time i⟩, buffer⟩
      with e | u
    · simp only [hsend] at hne; simp at hne
    · simp only [hsend] at hne ⊢
      by_cases hkp : kp = []
      · simp [hkp]
      · have hkp2 : kp.isEmpty = false := by
          simp [List.isEmpty_iff, hkp]
        simp only [hkp2, Bool.false_eq_true, if_false] at hne ⊢
        rcases hqs : env.send_pose ⟨⟨c⟩, kpBytes kp⟩ with e | u
        · simp only [hqs] at hne; simp at hne
        · simp only [hqs]
          simp [hkp]

/-- Every preview message the publish stage emits (raising or not) carries
the encoding of its frame at quality 70. -/
theorem publishStage_prev_mem (env : Env) (i : Nat) (f : Frame)
    (kp : List Nat) (c : Nat) (pm : PreviewMsg)
    (h : pm ∈ (publishStage env i f kp c).prevOut) :
    env.imencode f 70 = Except.ok pm.payload := by
  unfold publishStage at h
  rcases henc : env.imencode f 70 with e | buffer
  · rw [henc] at h; simp at h
  · simp only [henc] at h
    rcases hsend : env.send_img ⟨⟨f.width, f.height, env.time i⟩, buffer⟩
      with e | u
    · simp only [hsend] at h; simp at h
    · simp only [hsend] at h
      by_cases hkp : kp.isEmpty
      · simp only [hkp] at h
        simp at h
        rw [h]
      · simp only [hkp] at h
        rcases hqs : env.send_pose ⟨⟨c⟩, kpBytes kp⟩ with e | u
        · simp only [hqs] at h
          simp at h
          rw [h]
        · simp only [hqs] at h
          simp at h
          rw [h]

/-- C1: for a successfully decoded frame whose body pass does not raise, a
pose message goes out exactly when the estimator returned a non-empty
landmark set; any published pose message carries `count = N`, a payload of
exactly `4*N` little-endian 32-bit words laid out landmark-major as
`(x, y, z, visibility)` in estimator order (`4*N*4` bytes), and never
`count = 0`. -/
theorem pose_message_iff (env : Env) (i : Nat) (m : List (List Nat))
    (p : List Nat) (frame : Frame)
    (hp : m[1]? = some p)
    (hdec : env.imdecode p = Except.ok (some frame))
    (hne : (body env i m).res ≠ BodyRes.exn) :
    ((body env i m).poseOut ≠ [] ↔
      ∃ lms, env.process i (env.cvtColorBGR2RGB frame) = Except.ok (some lms) ∧
        lms ≠ []) ∧
    ∀ qm ∈ (body env i m).poseOut,
      ∃ lms,
        env.process i (env.cvtColorBGR2RGB frame) = Except.ok (some lms) ∧
        lms ≠ [] ∧
        qm.meta.count = lms.length ∧
        qm.payload =
          (lms.flatMap fun l =>
            le4 l.x ++ le4 l.y ++ le4 l.z ++ le4 l.visibility) ∧
        qm.payload.length = 4 * lms.length * 4 ∧
        qm.meta.count ≠ 0 := by
  rcases hproc : env.process i (env.cvtColorBGR2RGB frame) with e | ro
  · simp [body, hp, hdec, hproc] at hne
  · rcases ro with _ | lms
    · have hb : body env i m = publishStage env i frame [] 0 := by
        simp [body, hp, hdec, hproc]
      rw [hb] at hne ⊢
      obtain ⟨hiff, _⟩ := publishStage_poseOut env i frame [] 0 hne
      constructor
      · rw [hiff]; simp
      · intro qm hqm
        exfalso
        have hnn : (publishStage env i frame [] 0).poseOut ≠ [] :=
          List.ne_nil_of_mem hqm
        rw [hiff] at hnn
        exact hnn rfl
    · rcases hdraw : env.draw_landmarks frame lms with e | d
      · simp [body, hp, hdec, hproc, hdraw] at hne
      · have hb : body env i m =
            publishStage env i { frame with data := d } (kpList lms)
              lms.length := by
          simp [body, hp, hdec, hproc, hdraw]
        rw [hb] at hne ⊢
        obtain ⟨hiff, hmem⟩ :=
          publishStage_poseOut env i { frame with data := d } (kpList lms)
            lms.length hne
        constructor
        · rw [hiff, ne_eq, kpList_eq_nil_iff]
          simp
        · intro qm hqm
          have hnn := List.ne_nil_of_mem hqm
          rw [hiff, ne_eq, kpList_eq_nil_iff] at hnn
          obtain ⟨hc, hpl⟩ := hmem qm hqm
          refine ⟨lms, rfl, hnn, hc, ?_, ?_, ?_⟩
          · rw [hpl, kpBytes_kpList]
          · rw [hpl, kpBytes_kpList_length]
          · rw [hc]
            intro h0
            exact hnn (List.length_eq_zero.mp h0)

/-- C1 witness: the detected-pose test frame publishes one pose message with
`count = 1` and a 16-byte landmark-major payload. -/
theorem pose_message_iff_witness :
    ((body testEnv 0 [[0], [7]]).poseOut ≠ [] ↔
      ∃ lms,
        testEnv.process 0 (testEnv.cvtColorBGR2RGB testFrame) =
          Except.ok (some lms) ∧ lms ≠ []) ∧
    ∀ qm ∈ (body testEnv 0 [[0], [7]]).poseOut,
      ∃ lms,
        testEnv.process 0 (testEnv.cvtColorBGR2RGB testFrame) =
          Except.ok (some lms) ∧
        lms ≠ [] ∧
        qm.meta.count = lms.length ∧
        qm.payload =
          (lms.flatMap fun l =>
            le4 l.x ++ le4 l.y ++ le4 l.z ++ le4 l.visibility) ∧
        qm.payload.length = 4 * lms.length * 4 ∧
        qm.meta.count ≠ 0 :=
  pose_message_iff testEnv 0 [[0], [7]] [7] testFrame rfl rfl (by decide)

/-- C2: for a successfully decoded frame whose body pass does not raise
(given the annotator's documented no-op contract on an empty landmark set),
exactly one preview message is published; its metadata is the decoded
buffer's width and height plus the current timestamp, and its payload is the
quality-70 encoding of the annotated buffer when landmarks were found and of
the undecorated buffer when the landmark set was empty. -/
theorem preview_message_always (env : Env) (i : Nat) (m : List (List Nat))
    (p : List Nat) (frame : Frame)
    (hp : m[1]? = some p)
    (hdec : env.imdecode p = Except.ok (some frame))
    (hnoop : env.draw_landmarks frame [] = Except.ok frame.data)
    (hne : (body env i m).res ≠ BodyRes.exn) :
    (body env i m).prevOut.length = 1 ∧
    ∀ pm ∈ (body env i m).prevOut,
      pm.meta.w = frame.width ∧ pm.meta.h = frame.height ∧
      pm.meta.ts = env.time i ∧
      (env.process i (env.cvtColorBGR2RGB frame) = Except.ok none →
        env.imencode frame 70 = Except.ok pm.payload) ∧
      (env.process i (env.cvtColorBGR2RGB frame) = Except.ok (some []) →
        env.imencode frame 70 = Except.ok pm.payload) ∧
      (∀ lms, lms ≠ [] →
        env.process i (env.cvtColorBGR2RGB frame) = Except.ok (some lms) →
        ∃ d, env.draw_landmarks frame lms = Except.ok d ∧
          env.imencode { frame with data := d } 70 = Except.ok pm.payload) := by
  rcases hproc : env.process i (env.cvtColorBGR2RGB frame) with e | ro
  · simp [body, hp, hdec, hproc] at hne
  · rcases ro with _ | lms
    · have hb : body env i m = publishStage env i frame [] 0 := by
        simp [body, hp, hdec, hproc]
      rw [hb] at hne ⊢
      obtain ⟨buffer, henc, hprev⟩ := publishStage_prevOut env i frame [] 0 hne
      rw [hprev]
      refine ⟨rfl, ?_⟩
      intro pm hpm
      simp only [List.mem_singleton] at hpm
      subst hpm
      refine ⟨rfl, rfl, rfl, fun _ => henc, ?_, ?_⟩
      · intro habs
        exact absurd habs (by simp)
      · intro lms2 _ habs
        exact absurd habs (by simp)
    · rcases hdraw : env.draw_landmarks frame lms with e | d
      · simp [body, hp, hdec, hproc, hdraw] at hne
      · have hb : body env i m =
            publishStage env i { frame with data := d } (kpList lms)
              lms.length := by
          simp [body, hp, hdec, hproc, hdraw]
        rw [hb] at hne ⊢
        obtain ⟨buffer, henc, hprev⟩ :=
          publishStage_prevOut env i { frame with data := d } (kpList lms)
            lms.length hne
        rw [hprev]
        refine ⟨rfl, ?_⟩
        intro pm hpm
        simp only [List.mem_singleton] at hpm
        subst hpm
        refine ⟨rfl, rfl, rfl, ?_, ?_, ?_⟩
        · intro habs
          exact absurd habs (by simp)
        · intro hsome
          have hlms : lms = [] := by
            simpa using hsome
          subst hlms
          have hd : d = frame.data := by
            rw [hnoop] at hdraw
            simpa using hdraw.symm
          subst hd
          exact henc
        · intro lms2 _ hsome
          have hlms : lms = lms2 := by
            simpa using hsome
          subst hlms
          exact ⟨d, hdraw, henc⟩

/-- C2 witness: both a no-pose frame and a detected-pose frame publish
exactly one preview message with the right metadata and payload source. -/
theorem preview_message_always_witness :
    (body testEnv 0 [[0], [8]]).prevOut.length = 1 ∧
    ∀ pm ∈ (body testEnv 0 [[0], [8]]).prevOut,
      pm.meta.w = testFrame2.width ∧ pm.meta.h = testFrame2.height ∧
      pm.meta.ts = testEnv.time 0 ∧
      (testEnv.process 0 (testEnv.cvtColorBGR2RGB testFrame2) =
          Except.ok none →
        testEnv.imencode testFrame2 70 = Except.ok pm.payload) ∧
      (testEnv.process 0 (testEnv.cvtColorBGR2RGB testFrame2) =
          Except.ok (some []) →
        testEnv.imencode testFrame2 70 = Except.ok pm.payload) ∧
      (∀ lms, lms ≠ [] →
        testEnv.process 0 (testEnv.cvtColorBGR2RGB testFrame2) =
          Except.ok (some lms) →
        ∃ d, testEnv.draw_landmarks testFrame2 lms = Except.ok d ∧
          testEnv.imencode { testFrame2 with data := d } 70 =
            Except.ok pm.payload) :=
  preview_message_always testEnv 0 [[0], [8]] [8] testFrame2 rfl rfl rfl
    (by decide)

/-- Every preview message the body emits (on any branch) carries the
quality-70 encoding of some frame. -/
theorem body_prev_quality (env : Env) (i : Nat) (m : List (List Nat))
    (pm : PreviewMsg) (h : pm ∈ (body env i m).prevOut) :
    ∃ f, env.imencode f 70 = Except.ok pm.payload := by
  rcases hpay : m[1]? with _ | p
  · simp [body, hpay] at h
  · rcases hdec : env.imdecode p with e | of
    · simp [body, hpay, hdec] at h
    · rcases of with _ | frame
      · simp [body, hpay, hdec] at h
      · rcases hproc : env.process i (env.cvtColorBGR2RGB frame) with e | ro
        · simp [body, hpay, hdec, hproc] at h
        · rcases ro with _ | lms
          · simp only [body, hpay, hdec, hproc] at h
            exact ⟨frame, publishStage_prev_mem env i frame [] 0 pm h⟩
          · rcases hdraw : env.draw_landmarks frame lms with e | d
            · simp [body, hpay, hdec, hproc, hdraw] at h
            · simp only [body, hpay, hdec, hproc, hdraw] at h
              exact ⟨{ frame with data := d },
                publishStage_prev_mem env i { frame with data := d }
                  (kpList lms) lms.length pm h⟩

/-- Every preview publication in a loop trace carries the quality-70
encoding of some frame. -/
theorem loopRun_prev_quality (env : Env) :
    ∀ (es : List Event) (i : Nat) (pm : PreviewMsg),
      Action.pubPreview pm ∈ (loopRun env i es).1 →
      ∃ f, env.imencode f 70 = Except.ok pm.payload := by
  intro es
  induction es with
  | nil => intro i pm h; simp [loopRun] at h
  | cons e es ih =>
    intro i pm h
    cases e with
    | timeout => exact ih _ pm h
    | interrupt => simp [loopRun] at h
    | recvErr => simp [loopRun] at h
    | recv m =>
      simp only [loopRun] at h
      have hb : ∀ b : BodyOut, Action.pubPreview pm ∈ bodyActs b →
          pm ∈ b.prevOut := by
        intro b hab
        simp only [bodyActs, List.mem_append, List.mem_map] at hab
        rcases hab with ⟨pm2, hmem, heq⟩ | ⟨qm, _, heq⟩
        · injection heq with h3
          rwa [h3] at hmem
        · exact absurd heq (by simp)
      rcases hres : (body env i m).res with _ | _ | _ <;> rw [hres] at h
      · rcases List.mem_append.mp h with h1 | h2
        · exact body_prev_quality env i m pm (hb _ h1)
        · exact ih _ pm h2
      · rcases List.mem_append.mp h with h1 | h2
        · exact body_prev_quality env i m pm (hb _ h1)
        · exact ih _ pm h2
      · exact body_prev_quality env i m pm (hb _ h)

/-- C10: every preview message a whole run publishes has as payload the
quality-70 encoding of some frame; the quality argument of the encoder is
the literal constant 70 for every frame and every environment, with no
interface to change it. -/
theorem preview_quality_constant (env : Env) (es : List Event)
    (pm : PreviewMsg)
    (h : Action.pubPreview pm ∈ (mainRun env es).1) :
    ∃ f, env.imencode f 70 = Except.ok pm.payload := by
  simp only [mainRun] at h
  rcases hex : (loopRun env 0 es).2 with _ | k <;> simp only [hex] at h
  · exact loopRun_prev_quality env es 0 pm h
  · rcases List.mem_append.mp h with h1 | h2
    · exact loopRun_prev_quality env es 0 pm h1
    · simp [shutdownActs] at h2

/-- C10 witness: the preview message of the detected-pose test frame is the
quality-70 encoding of the annotated test frame. -/
theorem preview_quality_constant_witness :
    ∃ f, testEnv.imencode f 70 =
      Except.ok (PreviewMsg.payload ⟨⟨3, 2, 100⟩, [70, 5, 1, 2, 3]⟩) :=
  preview_quality_constant testEnv [Event.recv [[0], [7]]]
    ⟨⟨3, 2, 100⟩, [70, 5, 1, 2, 3]⟩ (by decide)

/-- C9: an inbound message with fewer than two parts makes the unguarded
`msg[1]` access raise, so the body ends in the exceptional outcome, the loop
breaks without publishing anything, and the process takes the shutdown path
instead of skipping to the next frame. -/
theorem short_message_fatal (env : Env) (m : List (List Nat))
    (es : List Event) (h : m.length < 2) :
    body env 0 m = ⟨[], [], BodyRes.exn⟩ ∧
    mainRun env (Event.recv m :: es) = (shutdownActs, some ExitKind.errored) := by
  have hp : m[1]? = none := List.getElem?_eq_none (by omega)
  have hbody : body env 0 m = ⟨[], [], BodyRes.exn⟩ := by simp [body, hp]
  refine ⟨hbody, ?_⟩
  simp [mainRun, loopRun, hbody, bodyActs]

/-- C9 witness: a one-part message terminates the run through the shutdown
path even when further events are queued. -/
theorem short_message_fatal_witness :
    body testEnv 0 [[0]] = ⟨[], [], BodyRes.exn⟩ ∧
    mainRun testEnv [Event.recv [[0]], Event.recv [[0], [8]]] =
      (shutdownActs, some ExitKind.errored) :=
  short_message_fatal testEnv [[0]] [Event.recv [[0], [8]]] (by decide)

/-- C4: any exceptional outcome of the body (receive included) breaks the
loop immediately — the remaining script is never processed and there is no
retry — and the recoverable `skip` outcome arises exactly when `cv2.imdecode`
returned `None` on the payload part, so decode-null is the only recoverable
per-message failure path. -/
theorem uncaught_error_fatal (env : Env) (i : Nat) (m : List (List Nat))
    (es : List Event) :
    ((body env i m).res = BodyRes.exn →
      loopRun env i (Event.recv m :: es) =
        (bodyActs (body env i m), some ExitKind.errored)) ∧
    loopRun env i (Event.recvErr :: es) = ([], some ExitKind.errored) ∧
    ((body env i m).res = BodyRes.skip ↔
      ∃ p, m[1]? = some p ∧ env.imdecode p = Except.ok none) := by
  refine ⟨?_, by simp [loopRun], ?_, ?_⟩
  · intro hexn
    simp [loopRun, hexn]
  · intro h
    rcases hpay : m[1]? with _ | p
    · simp [body, hpay] at h
    · rcases hdec : env.imdecode p with e | of
      · simp [body, hpay, hdec] at h
      · rcases of with _ | frame
        · exact ⟨p, rfl, hdec⟩
        · rcases hproc : env.process i (env.cvtColorBGR2RGB frame) with e | ro
          · simp [body, hpay, hdec, hproc] at h
          · rcases ro with _ | lms
            · simp only [body, hpay, hdec, hproc] at h
              exact absurd h (publishStage_res_ne_skip env i frame [] 0)
            · rcases hdraw : env.draw_landmarks frame lms with e | d
              · simp [body, hpay, hdec, hproc, hdraw] at h
              · simp only [body, hpay, hdec, hproc, hdraw] at h
                exact absurd h
                  (publishStage_res_ne_skip env i { frame with data := d }
                    (kpList lms) lms.length)
  · rintro ⟨p, hpay, hdec⟩
    simp [body, hpay, hdec]

/-- C4 witness: the one-part message raises, the loop stops at it; a receive
error also stops the loop; and that message's outcome is not the skip path. -/
theorem uncaught_error_fatal_witness :
    (body testEnv 0 [[0]]).res = BodyRes.exn ∧
    loopRun testEnv 0 [Event.recv [[0]], Event.timeout] =
      (bodyActs (body testEnv 0 [[0]]), some ExitKind.errored) ∧
    loopRun testEnv 0 [Event.recvErr, Event.timeout] =
      ([], some ExitKind.errored) :=
  ⟨by decide,
    (uncaught_error_fatal testEnv 0 [[0]] [Event.timeout]).1 (by decide),
    (uncaught_error_fatal testEnv 0 [[0]] [Event.timeout]).2.1⟩

/-- The publish stage emits at most one message per channel. -/
theorem publishStage_len_le (env : Env) (i : Nat) (f : Frame)
    (kp : List Nat) (c : Nat) :
    (publishStage env i f kp c).prevOut.length ≤ 1 ∧
    (publishStage env i f kp c).poseOut.length ≤ 1 := by
  unfold publishStage
  rcases env.imencode f 70 with e | buffer
  · simp
  · simp only
    rcases env.send_img ⟨⟨f.width, f.height, env.time i⟩, buffer⟩ with e | u
    · simp
    · by_cases hkp : kp.isEmpty
      · simp [hkp]
      · simp only [hkp]
        rcases env.send_pose ⟨⟨c⟩, kpBytes kp⟩ with e | u <;> simp

/-- One body pass emits at most one message on each outbound channel. -/
theorem body_out_bounds (env : Env) (i : Nat) (m : List (List Nat)) :
    (body env i m).prevOut.length ≤ 1 ∧
    (body env i m).poseOut.length ≤ 1 := by
  rcases hpay : m[1]? with _ | p
  · simp [body, hpay]
  · rcases hdec : env.imdecode p with e | of
    · simp [body, hpay, hdec]
    · rcases of with _ | frame
      · simp [body, hpay, hdec]
      · rcases hproc : env.process i (env.cvtColorBGR2RGB frame) with e | ro
        · simp [body, hpay, hdec, hproc]
        · rcases ro with _ | lms
          · simp only [body, hpay, hdec, hproc]
            exact publishStage_len_le env i frame [] 0
          · rcases hdraw : env.draw_landmarks frame lms with e | d
            · simp [body, hpay, hdec, hproc, hdraw]
            · simp only [body, hpay, hdec, hproc, hdraw]
              exact publishStage_len_le env i { frame with data := d }
                (kpList lms) lms.length

/-- C5: the trace of any run is the in-order concatenation, over a prefix of
the script, of the publish actions of each event — each iteration consumes
at most one inbound message and fully publishes frame N's messages (at most
one per channel, preview before pose) before the next event is looked at, so
each outbound channel carries messages in exact inbound receipt order. -/
theorem single_message_fifo (env : Env) (i : Nat) (es : List Event)
    (m : List (List Nat)) :
    (∃ n, n ≤ es.length ∧ (loopRun env i es).1 = actsOf env i (es.take n)) ∧
    (body env i m).prevOut.length ≤ 1 ∧
    (body env i m).poseOut.length ≤ 1 ∧
    bodyActs (body env i m) =
      (body env i m).prevOut.map Action.pubPreview ++
        (body env i m).poseOut.map Action.pubPose := by
  refine ⟨loopRun_trace_take env es i, (body_out_bounds env i m).1,
    (body_out_bounds env i m).2, rfl⟩

/-- C6: an interrupt at the poll boundary exits the loop cleanly with no
further publications, and every terminating run — interrupt or error —
ends its trace with the three channel closes and the context termination,
in that fixed order, each occurring exactly once. -/
theorem interrupt_graceful_shutdown (env : Env) (i : Nat)
    (es es2 : List Event) (k : ExitKind)
    (h : (mainRun env es2).2 = some k) :
    loopRun env i (Event.interrupt :: es) =
      ([], some ExitKind.interrupted) ∧
    ∃ pubs, (mainRun env es2).1 = pubs ++ shutdownActs ∧
      (∀ a ∈ pubs, isPub a = true) ∧
      (mainRun env es2).1.count Action.closeSub = 1 ∧
      (mainRun env es2).1.count Action.closePubImg = 1 ∧
      (mainRun env es2).1.count Action.closePubPose = 1 ∧
      (mainRun env es2).1.count Action.termCtx = 1 := by
  constructor
  · simp [loopRun]
  · simp only [mainRun] at h ⊢
    rcases hex : (loopRun env 0 es2).2 with _ | k2 <;> simp only [hex] at h ⊢
    · exact Option.noConfusion h
    · have hcnt : ∀ a : Action, isPub a = false →
          (loopRun env 0 es2).1.count a = 0 := by
        intro a ha
        rw [List.count_eq_zero]
        intro hmem
        have hpub := loopRun_all_pub env es2 0 a hmem
        rw [ha] at hpub
        exact Bool.false_ne_true hpub
      refine ⟨(loopRun env 0 es2).1, rfl,
        fun a ha => loopRun_all_pub env es2 0 a ha, ?_, ?_, ?_, ?_⟩
      · rw [List.count_append, hcnt Action.closeSub rfl]; decide
      · rw [List.count_append, hcnt Action.closePubImg rfl]; decide
      · rw [List.count_append, hcnt Action.closePubPose rfl]; decide
      · rw [List.count_append, hcnt Action.termCtx rfl]; decide

/-- C6 witness: a run that processes one frame and is then interrupted exits
as interrupted and closes everything exactly once, in order, at the end. -/
theorem interrupt_graceful_shutdown_witness :
    loopRun testEnv 0 (Event.interrupt :: []) =
      ([], some ExitKind.interrupted) ∧
    ∃ pubs,
      (mainRun testEnv [Event.recv [[0], [7]], Event.interrupt]).1 =
        pubs ++ shutdownActs ∧
      (∀ a ∈ pubs, isPub a = true) ∧
      (mainRun testEnv [Event.recv [[0], [7]], Event.interrupt]).1.count
        Action.closeSub = 1 ∧
      (mainRun testEnv [Event.recv [[0], [7]], Event.interrupt]).1.count
        Action.closePubImg = 1 ∧
      (mainRun testEnv [Event.recv [[0], [7]], Event.interrupt]).1.count
        Action.closePubPose = 1 ∧
      (mainRun testEnv [Event.recv [[0], [7]], Event.interrupt]).1.count
        Action.termCtx = 1 :=
  interrupt_graceful_shutdown testEnv 0 []
    [Event.recv [[0], [7]], Event.interrupt] ExitKind.interrupted (by decide)

/-- C7: on every successfully decoded frame the estimator is invoked on the
BGR-to-RGB converted copy (it is the sole scrutinee of the estimation step),
while the skeleton overlay is drawn onto the original BGR buffer, the
encoder runs on that original (possibly annotated) buffer, and the preview
payload is its encoding — the converted copy never reaches annotate or
encode. -/
theorem estimator_colorspace (env : Env) (i : Nat) (m : List (List Nat))
    (p : List Nat) (frame : Frame)
    (hp : m[1]? = some p)
    (hdec : env.imdecode p = Except.ok (some frame)) :
    (env.process i (env.cvtColorBGR2RGB frame) = Except.ok none →
      body env i m = publishStage env i frame [] 0) ∧
    (∀ lms d buf,
      env.process i (env.cvtColorBGR2RGB frame) = Except.ok (some lms) →
      env.draw_landmarks frame lms = Except.ok d →
      env.imencode { frame with data := d } 70 = Except.ok buf →
      body env i m =
        publishStage env i { frame with data := d } (kpList lms)
          lms.length ∧
      ∀ pm ∈ (body env i m).prevOut, pm.payload = buf) := by
  constructor
  · intro hproc
    simp [body, hp, hdec, hproc]
  · intro lms d buf hproc hdraw henc
    have hb : body env i m =
        publishStage env i { frame with data := d } (kpList lms)
          lms.length := by
      simp [body, hp, hdec, hproc, hdraw]
    refine ⟨hb, ?_⟩
    intro pm hpm
    rw [hb] at hpm
    have hq := publishStage_prev_mem env i { frame with data := d }
      (kpList lms) lms.length pm hpm
    rw [henc] at hq
    injection hq with h2
    exact h2.symm

/-- C7 witness: in `testEnv` the estimator fires only on the colour-converted
data of the test frame, the overlay and the encoder act on the original
buffer, and the preview payload is the encoding of the annotated original. -/
theorem estimator_colorspace_witness :
    body testEnv 0 [[0], [7]] =
      publishStage testEnv 0 { testFrame with data := [5, 1, 2, 3] }
        (kpList [testLm]) (List.length [testLm]) ∧
    ∀ pm ∈ (body testEnv 0 [[0], [7]]).prevOut,
      pm.payload = [70, 5, 1, 2, 3] :=
  (estimator_colorspace testEnv 0 [[0], [7]] [7] testFrame rfl rfl).2
    [testLm] [5, 1, 2, 3] [70, 5, 1, 2, 3] rfl rfl rfl

/-- The body depends only on the payload part `msg[1]` of the received
message; the metadata part is never read. -/
theorem body_payload_only (env : Env) (i : Nat) (m m2 : List (List Nat))
    (h : m[1]? = m2[1]?) : body env i m = body env i m2 := by
  unfold body
  rw [h]

/-- Two scripts whose received messages agree on their payload parts drive
the loop identically. -/
theorem loopRun_payload_only (env : Env) (es es2 : List Event)
    (h : List.Forall₂ eventSamePayload es es2) :
    ∀ i, loopRun env i es = loopRun env i es2 := by
  induction h with
  | nil => intro i; rfl
  | @cons a b es es2 hrel hrest ih =>
    intro i
    cases a with
    | timeout =>
      cases b with
      | timeout =>
        simp only [loopRun]
        exact ih (i + 1)
      | recv m2 => exact absurd hrel (by simp [eventSamePayload])
      | recvErr => exact absurd hrel (by simp [eventSamePayload])
      | interrupt => exact absurd hrel (by simp [eventSamePayload])
    | recv m =>
      cases b with
      | timeout => exact absurd hrel (by simp [eventSamePayload])
      | recv m2 =>
        have hpay : m[1]? = m2[1]? := by
          simpa [eventSamePayload] using hrel
        have hb := body_payload_only env i m m2 hpay
        simp only [loopRun, hb, ih (i + 1)]
      | recvErr => exact absurd hrel (by simp [eventSamePayload])
      | interrupt => exact absurd hrel (by simp [eventSamePayload])
    | recvErr =>
      cases b with
      | timeout => exact absurd hrel (by simp [eventSamePayload])
      | recv m2 => exact absurd hrel (by simp [eventSamePayload])
      | recvErr => rfl
      | interrupt => exact absurd hrel (by simp [eventSamePayload])
    | interrupt =>
      cases b with
      | timeout => exact absurd hrel (by simp [eventSamePayload])
      | recv m2 => exact absurd hrel (by simp [eventSamePayload])
      | recvErr => exact absurd hrel (by simp [eventSamePayload])
      | interrupt => rfl

/-- C8: the inbound metadata part is never inspected — two runs whose
inbound messages are identical except in their metadata parts produce
identical traces (every published preview and pose message included) and
identical exits. -/
theorem metadata_ignored (env : Env) (es es2 : List Event)
    (h : List.Forall₂ eventSamePayload es es2) :
    mainRun env es = mainRun env es2 ∧
    ∀ i, loopRun env i es = loopRun env i es2 := by
  have hl := loopRun_payload_only env es es2 h
  refine ⟨?_, hl⟩
  simp only [mainRun, hl 0]

/-- C8 witness: changing only the metadata part of the received message
leaves the whole run unchanged. -/
theorem metadata_ignored_witness :
    mainRun testEnv [Event.recv [[0], [7]]] =
      mainRun testEnv [Event.recv [[1, 2, 3], [7]]] ∧
    ∀ i, loopRun testEnv i [Event.recv [[0], [7]]] =
      loopRun testEnv i [Event.recv [[1, 2, 3], [7]]] :=
  metadata_ignored testEnv [Event.recv [[0], [7]]]
    [Event.recv [[1, 2, 3], [7]]]
    (List.Forall₂.cons (by simp [eventSamePayload]) List.Forall₂.nil)

end PoseBridge
